import Mathlib

/-!
Verification of the ftp-auto-upload watcher (src/index.ts) against its
natural-language specification.  The embedding below translates the core
of the `FTPFileWatcher` class: the uploaded-files ledger
(`loadUploadedFiles` / `saveUploadedFiles`), the retry-delay computation
(`calculateRetryDelay`), the retry loop (`uploadFile`), the event decision
procedure (`handleFileChange`) and the environment-variable configuration
parsing in the constructor.  External effects (filesystem, FTP client,
timers) are made explicit: the persisted ledger file is a `StoredFile`
value, the FTP client's behaviour on attempt `k` is an `AttemptEnv` value
supplied by a function `Nat → AttemptEnv`, and each `setTimeout` sleep is
recorded in a trace of delays instead of being performed.
-/

namespace FtpAutoUpload

/-- State of the persisted `uploaded-files.json` file: missing, present but
unreadable/unparsable, or present with a parsed JSON array of relative-path
strings. -/
inductive StoredFile where
  | absent : StoredFile
  | malformed : StoredFile
  | content : List String → StoredFile
deriving DecidableEq, Repr

/-- `loadUploadedFiles` (index.ts lines 53-63): if the file exists, read and
parse it; any read/parse error is caught, a warning is logged and the empty
set is returned; a missing file also yields the empty set (no warning).
Returns the loaded entry list together with a flag recording whether the
warning branch was taken.  The JS `Set` is modelled as the entry list with
membership as `∈`. -/
def loadUploadedFiles : StoredFile → List String × Bool
  | StoredFile.absent => ([], false)
  | StoredFile.malformed => ([], true)
  | StoredFile.content l => (l, false)

/-- JS `Set.prototype.add` on the list model of the in-memory set: append
the element unless it is already present (insertion order preserved). -/
def addLedger (l : List String) (p : String) : List String :=
  if p ∈ l then l else l ++ [p]

/-- Lines 119-121 of `uploadFile`: `this.uploadedFiles.add(relativePath)`
followed by `this.saveUploadedFiles()`.  `saveUploadedFiles` (lines 65-71)
overwrites the ledger file with the serialized set; a write error is caught
and logged, leaving the previously stored state in place, which `saveOk`
models.  Returns the new in-memory set and the new stored-file state. -/
def record (saveOk : Bool) (ledger : List String) (stored : StoredFile)
    (rp : String) : List String × StoredFile :=
  let l := addLedger ledger rp
  (l, if saveOk then StoredFile.content l else stored)

/-- `.replace(/\\/g, '/')` (index.ts lines 104 and 114): replace every
backslash character by a forward slash. -/
def normalizeSlashes (s : String) : String :=
  String.mk (s.data.map (fun c => if c = '\\' then '/' else c))

/-- Node `path.dirname` restricted to relative forward-slash paths without a
trailing separator (POSIX flavour): everything before the last separator, or
`.` when there is none.  The claims never inspect the directory string beyond
comparing it with `"."`, so the platform-specific separator handling of
`path.dirname` does not affect any statement below. -/
def dirname (s : String) : String :=
  let parts := s.data.splitOn '/'
  if parts.length ≤ 1 then "."
  else
    let d := List.intercalate ['/'] parts.dropLast
    if d = [] then "/" else String.mk d

/-- `path.dirname(relativePath).replace(/\\/g, '/')` (index.ts line 104). -/
def remoteDirOf (rp : String) : String :=
  normalizeSlashes (dirname rp)

/-- The `retryConfig` record of `FTPFileWatcher`.  Delays and the multiplier
are JS numbers; they are embedded as rationals. -/
structure RetryConfig where
  maxRetries : Nat
  initialDelayMs : ℚ
  maxDelayMs : ℚ
  backoffMultiplier : ℚ
deriving DecidableEq, Repr

/-- `calculateRetryDelay` (index.ts lines 77-80):
`Math.min(initialDelayMs * backoffMultiplier ** attemptNumber, maxDelayMs)`. -/
def calculateRetryDelay (cfg : RetryConfig) (attemptNumber : Nat) : ℚ :=
  min (cfg.initialDelayMs * cfg.backoffMultiplier ^ attemptNumber) cfg.maxDelayMs

/-- Behaviour of the external collaborators during one attempt of the retry
loop: whether `client.access` succeeds, whether `client.ensureDir` succeeds,
whether `client.uploadFrom` succeeds, and whether the ledger write in
`saveUploadedFiles` succeeds. -/
structure AttemptEnv where
  accessOk : Bool
  ensureDirOk : Bool
  uploadOk : Bool
  saveOk : Bool
deriving DecidableEq, Repr

/-- An attempt reaches the success return (line 126) exactly when
`client.access` and `client.uploadFrom` both succeed; an `ensureDir` failure
is caught locally (lines 106-110) and never fails the attempt. -/
def attemptSucceeds (e : AttemptEnv) : Bool :=
  e.accessOk && e.uploadOk

/-- `AttemptEnv` with the `ensureDir` failure removed, all else unchanged. -/
def withEnsureDirOk (e : AttemptEnv) : AttemptEnv :=
  ⟨e.accessOk, true, e.uploadOk, e.saveOk⟩

/-- How `uploadFile` terminates: the `return` on line 126, or the `throw`
on line 136 after the last attempt fails. -/
inductive UploadResult where
  | success : UploadResult
  | thrown : UploadResult
deriving DecidableEq, Repr

/-- Observable outcome of one run of `uploadFile`: termination kind, final
in-memory ledger, final stored-file state, the trace of backoff sleeps in
order, the number of loop iterations entered, the `uploadFrom` invocations
as (attempt index, remote path) pairs, and the attempt indices at which the
`ensureDir` warning of line 109 was logged. -/
structure UploadOutcome where
  result : UploadResult
  ledger : List String
  stored : StoredFile
  delays : List ℚ
  attemptsMade : Nat
  transfers : List (Nat × String)
  dirWarnings : List Nat
deriving DecidableEq, Repr

/-- Lines 94-98: if `attempt > 0`, sleep `calculateRetryDelay (attempt - 1)`
before retrying; the sleep is appended to the delay trace. -/
def stepDelays (cfg : RetryConfig) (attempt : Nat) (delays : List ℚ) :
    List ℚ :=
  if attempt > 0 then delays ++ [calculateRetryDelay cfg (attempt - 1)]
  else delays

/-- Lines 103-111: `ensureDir` is invoked only when the remote directory is
not `"."` and only after `access` succeeded; its failure is caught and
logged as a warning, recorded here by attempt index. -/
def stepDirWarns (e : AttemptEnv) (rp : String) (attempt : Nat)
    (dirWarns : List Nat) : List Nat :=
  if e.accessOk = true ∧ remoteDirOf rp ≠ "." ∧ e.ensureDirOk = false
  then dirWarns ++ [attempt] else dirWarns

/-- Lines 113-117: after a successful `access`, `uploadFrom` is invoked with
the remote path `relativePath.replace(/\\/g, '/')` (also when `ensureDir`
failed); if `access` failed the attempt never reaches `uploadFrom`. -/
def stepTransfers (e : AttemptEnv) (rp : String) (attempt : Nat)
    (transfers : List (Nat × String)) : List (Nat × String) :=
  if e.accessOk = true then transfers ++ [(attempt, normalizeSlashes rp)]
  else transfers

/-- Result of one iteration of the retry loop: either the success return of
line 126 with the whole outcome, or a caught failure (line 128) carrying the
updated traces while ledger and stored file are untouched. -/
inductive StepResult where
  | done : UploadOutcome → StepResult
  | failed : List ℚ → List (Nat × String) → List Nat → StepResult
deriving DecidableEq, Repr

/-- One iteration of the `for` loop of `uploadFile` (lines 90-138) at index
`attempt`, with collaborator behaviour `e`. -/
def uploadAttempt (cfg : RetryConfig) (e : AttemptEnv) (rp : String)
    (attempt : Nat) (ledger : List String) (stored : StoredFile)
    (delays : List ℚ) (transfers : List (Nat × String))
    (dirWarns : List Nat) : StepResult :=
  let delays1 := stepDelays cfg attempt delays
  let dirWarns1 := stepDirWarns e rp attempt dirWarns
  let transfers1 := stepTransfers e rp attempt transfers
  if attemptSucceeds e then
    StepResult.done ⟨UploadResult.success, (record e.saveOk ledger stored rp).1,
      (record e.saveOk ledger stored rp).2, delays1, attempt + 1, transfers1,
      dirWarns1⟩
  else
    StepResult.failed delays1 transfers1 dirWarns1

/-- The retry loop of `uploadFile`.  `remaining` is the number of further
iterations the loop guard still allows (`maxRetries - attempt`); when an
iteration fails with `remaining = 0` the code is at `attempt == maxRetries`
and the error propagates (line 136), otherwise the loop continues with the
next attempt. -/
def uploadLoop (cfg : RetryConfig) (env : Nat → AttemptEnv) (rp : String) :
    Nat → Nat → List String → StoredFile → List ℚ →
    List (Nat × String) → List Nat → UploadOutcome
  | 0, attempt, ledger, stored, delays, transfers, dirWarns =>
    match uploadAttempt cfg (env attempt) rp attempt ledger stored delays
        transfers dirWarns with
    | StepResult.done o => o
    | StepResult.failed d t w =>
      ⟨UploadResult.thrown, ledger, stored, d, attempt + 1, t, w⟩
  | Nat.succ r, attempt, ledger, stored, delays, transfers, dirWarns =>
    match uploadAttempt cfg (env attempt) rp attempt ledger stored delays
        transfers dirWarns with
    | StepResult.done o => o
    | StepResult.failed d t w =>
      uploadLoop cfg env rp r (attempt + 1) ledger stored d t w

/-- `uploadFile` (index.ts lines 86-143) for a file with relative path `rp`,
starting from in-memory ledger `ledger` and stored-file state `stored`:
run the retry loop from attempt 0 with `maxRetries` retries allowed. -/
def uploadFile (cfg : RetryConfig) (env : Nat → AttemptEnv) (rp : String)
    (ledger : List String) (stored : StoredFile) : UploadOutcome :=
  uploadLoop cfg env rp cfg.maxRetries 0 ledger stored [] [] []

/-- Result of `fs.existsSync` / `fs.statSync(...).isFile()` at decision
time (index.ts lines 150-158). -/
inductive FileStat where
  | absent : FileStat
  | directory : FileStat
  | file : FileStat
deriving DecidableEq, Repr

/-- How `handleFileChange` returns: the three early returns (lines 152, 157,
163) or the call to `uploadFile` (line 171), whose throw is caught by the
surrounding try/catch (lines 173-175) and logged, so that the watcher keeps
running either way. -/
inductive HandleOutcome where
  | skippedMissing : HandleOutcome
  | skippedNotFile : HandleOutcome
  | skippedAlreadyUploaded : HandleOutcome
  | uploaded : UploadOutcome → HandleOutcome
deriving DecidableEq, Repr

/-- `handleFileChange` (index.ts lines 145-176): skip when the file is gone,
skip when the path is not a regular file, skip when the ledger already has
the relative path and the event is not `'change'`; otherwise settle-delay
and call `uploadFile`. -/
def handleFileChange (cfg : RetryConfig) (env : Nat → AttemptEnv)
    (fstat : FileStat) (rp event : String) (ledger : List String)
    (stored : StoredFile) : HandleOutcome :=
  match fstat with
  | FileStat.absent => HandleOutcome.skippedMissing
  | FileStat.directory => HandleOutcome.skippedNotFile
  | FileStat.file =>
    if rp ∈ ledger ∧ event ≠ "change" then
      HandleOutcome.skippedAlreadyUploaded
    else
      HandleOutcome.uploaded (uploadFile cfg env rp ledger stored)

/-- The pattern `parseInt(envVar) || default` (index.ts lines 37-39).
`none` stands for an absent or unparsable variable (`parseInt` yields `NaN`,
which is falsy); a parsed `0` is falsy as well, so both fall back to the
default. -/
def parseIntOr (v : Option Int) (d : Int) : Int :=
  match v with
  | none => d
  | some n => if n = 0 then d else n

/-- The pattern `parseFloat(envVar) || default` (index.ts line 40), with the
same falsiness behaviour over rationals. -/
def parseFloatOr (v : Option ℚ) (d : ℚ) : ℚ :=
  match v with
  | none => d
  | some q => if q = 0 then d else q

/-- The `retryConfig` record as built by the constructor, before any
further interpretation: integer fields may be negative if the environment
says so, hence `Int` here. -/
structure RetryEnvConfig where
  maxRetries : Int
  initialDelayMs : Int
  maxDelayMs : Int
  backoffMultiplier : ℚ
deriving DecidableEq, Repr

/-- Constructor lines 36-41: build `retryConfig` from the parse results of
`FTP_MAX_RETRIES`, `FTP_RETRY_DELAY_MS`, `FTP_MAX_RETRY_DELAY_MS` and
`FTP_BACKOFF_MULTIPLIER`. -/
def mkRetryConfig (mr dly mx : Option Int) (bm : Option ℚ) :
    RetryEnvConfig :=
  ⟨parseIntOr mr 3, parseIntOr dly 1000, parseIntOr mx 30000,
    parseFloatOr bm 2⟩

/-- The components of an `UploadOutcome` that do not depend on `ensureDir`
behaviour: everything except the warning trace. -/
def coreOf (o : UploadOutcome) :
    UploadResult × List String × StoredFile × List ℚ × Nat ×
      List (Nat × String) :=
  (o.result, o.ledger, o.stored, o.delays, o.attemptsMade, o.transfers)

theorem mem_addLedger_self (l : List String) (p : String) :
    p ∈ addLedger l p := by
  unfold addLedger
  split
  · assumption
  · simp

theorem mem_addLedger_of_mem (l : List String) (p q : String) (h : q ∈ l) :
    q ∈ addLedger l p := by
  unfold addLedger
  split
  · exact h
  · exact List.mem_append_left _ h

theorem uploadAttempt_of_fail (cfg : RetryConfig) (e : AttemptEnv)
    (rp : String) (attempt : Nat) (ledger : List String) (stored : StoredFile)
    (delays : List ℚ) (transfers : List (Nat × String)) (dirWarns : List Nat)
    (h : attemptSucceeds e = false) :
    uploadAttempt cfg e rp attempt ledger stored delays transfers dirWarns
      = StepResult.failed (stepDelays cfg attempt delays)
          (stepTransfers e rp attempt transfers)
          (stepDirWarns e rp attempt dirWarns) := by
  simp [uploadAttempt, h]

theorem uploadAttempt_of_succ (cfg : RetryConfig) (e : AttemptEnv)
    (rp : String) (attempt : Nat) (ledger : List String) (stored : StoredFile)
    (delays : List ℚ) (transfers : List (Nat × String)) (dirWarns : List Nat)
    (h : attemptSucceeds e = true) :
    uploadAttempt cfg e rp attempt ledger stored delays transfers dirWarns
      = StepResult.done ⟨UploadResult.success,
          (record e.saveOk ledger stored rp).1,
          (record e.saveOk ledger stored rp).2,
          stepDelays cfg attempt delays, attempt + 1,
          stepTransfers e rp attempt transfers,
          stepDirWarns e rp attempt dirWarns⟩ := by
  simp [uploadAttempt, h]

theorem uploadLoop_allFail (cfg : RetryConfig) (env : Nat → AttemptEnv)
    (rp : String) (h : ∀ k, attemptSucceeds (env k) = false) :
    ∀ (remaining attempt : Nat) (ledger : List String) (stored : StoredFile)
      (delays : List ℚ) (transfers : List (Nat × String))
      (dirWarns : List Nat),
      (uploadLoop cfg env rp remaining attempt ledger stored delays transfers
          dirWarns).result = UploadResult.thrown
      ∧ (uploadLoop cfg env rp remaining attempt ledger stored delays
          transfers dirWarns).ledger = ledger
      ∧ (uploadLoop cfg env rp remaining attempt ledger stored delays
          transfers dirWarns).stored = stored
      ∧ (uploadLoop cfg env rp remaining attempt ledger stored delays
          transfers dirWarns).attemptsMade = attempt + remaining + 1 := by
  intro remaining
  induction remaining with
  | zero =>
    intro attempt ledger stored delays transfers dirWarns
    have ha := uploadAttempt_of_fail cfg (env attempt) rp attempt ledger
      stored delays transfers dirWarns (h attempt)
    refine ⟨?_, ?_, ?_, ?_⟩ <;> simp [uploadLoop, ha]
  | succ r ih =>
    intro attempt ledger stored delays transfers dirWarns
    have ha := uploadAttempt_of_fail cfg (env attempt) rp attempt ledger
      stored delays transfers dirWarns (h attempt)
    simp only [uploadLoop, ha]
    obtain ⟨h1, h2, h3, h4⟩ := ih (attempt + 1) ledger stored
      (stepDelays cfg attempt delays)
      (stepTransfers (env attempt) rp attempt transfers)
      (stepDirWarns (env attempt) rp attempt dirWarns)
    exact ⟨h1, h2, h3, by omega⟩

theorem stepDelays_canonical (cfg : RetryConfig) (attempt : Nat) :
    stepDelays cfg attempt
        ((List.range (attempt - 1)).map (calculateRetryDelay cfg))
      = (List.range attempt).map (calculateRetryDelay cfg) := by
  unfold stepDelays
  split
  · obtain ⟨m, rfl⟩ : ∃ m, attempt = m + 1 := ⟨attempt - 1, by omega⟩
    simp [List.range_succ]
  · have h0 : attempt = 0 := by omega
    subst h0
    rfl

theorem uploadLoop_delays_inv (cfg : RetryConfig) (env : Nat → AttemptEnv)
    (rp : String) :
    ∀ (remaining attempt : Nat) (ledger : List String) (stored : StoredFile)
      (delays : List ℚ) (transfers : List (Nat × String))
      (dirWarns : List Nat),
      delays = (List.range (attempt - 1)).map (calculateRetryDelay cfg) →
      (uploadLoop cfg env rp remaining attempt ledger stored delays transfers
          dirWarns).delays
        = (List.range ((uploadLoop cfg env rp remaining attempt ledger stored
            delays transfers dirWarns).attemptsMade - 1)).map
            (calculateRetryDelay cfg) := by
  intro remaining
  induction remaining with
  | zero =>
    intro attempt ledger stored delays transfers dirWarns hdel
    subst hdel
    cases hs : attemptSucceeds (env attempt) with
    | false =>
      have ha := uploadAttempt_of_fail cfg (env attempt) rp attempt ledger
        stored ((List.range (attempt - 1)).map (calculateRetryDelay cfg))
        transfers dirWarns hs
      simp only [uploadLoop, ha]
      simpa using stepDelays_canonical cfg attempt
    | true =>
      have ha := uploadAttempt_of_succ cfg (env attempt) rp attempt ledger
        stored ((List.range (attempt - 1)).map (calculateRetryDelay cfg))
        transfers dirWarns hs
      simp only [uploadLoop, ha]
      simpa using stepDelays_canonical cfg attempt
  | succ r ih =>
    intro attempt ledger stored delays transfers dirWarns hdel
    subst hdel
    cases hs : attemptSucceeds (env attempt) with
    | false =>
      have ha := uploadAttempt_of_fail cfg (env attempt) rp attempt ledger
        stored ((List.range (attempt - 1)).map (calculateRetryDelay cfg))
        transfers dirWarns hs
      simp only [uploadLoop, ha]
      apply ih
      simpa using stepDelays_canonical cfg attempt
    | true =>
      have ha := uploadAttempt_of_succ cfg (env attempt) rp attempt ledger
        stored ((List.range (attempt - 1)).map (calculateRetryDelay cfg))
        transfers dirWarns hs
      simp only [uploadLoop, ha]
      simpa using stepDelays_canonical cfg attempt

theorem uploadLoop_first_success (cfg : RetryConfig) (env : Nat → AttemptEnv)
    (rp : String) :
    ∀ (remaining attempt : Nat) (ledger : List String) (stored : StoredFile)
      (delays : List ℚ) (transfers : List (Nat × String))
      (dirWarns : List Nat) (k : Nat),
      attempt ≤ k → k ≤ attempt + remaining →
      attemptSucceeds (env k) = true →
      (∀ j, attempt ≤ j → j < k → attemptSucceeds (env j) = false) →
      (uploadLoop cfg env rp remaining attempt ledger stored delays transfers
          dirWarns).attemptsMade = k + 1
      ∧ (uploadLoop cfg env rp remaining attempt ledger stored delays
          transfers dirWarns).result = UploadResult.success
      ∧ (uploadLoop cfg env rp remaining attempt ledger stored delays
          transfers dirWarns).ledger = addLedger ledger rp := by
  intro remaining
  induction remaining with
  | zero =>
    intro attempt ledger stored delays transfers dirWarns k h1 h2 hsucc hfail
    have hk : k = attempt := by omega
    subst hk
    have ha := uploadAttempt_of_succ cfg (env k) rp k ledger stored delays
      transfers dirWarns hsucc
    refine ⟨?_, ?_, ?_⟩ <;> simp [uploadLoop, ha, record]
  | succ r ih =>
    intro attempt ledger stored delays transfers dirWarns k h1 h2 hsucc hfail
    rcases eq_or_lt_of_le h1 with heq | hlt
    · subst heq
      have ha := uploadAttempt_of_succ cfg (env attempt) rp attempt ledger
        stored delays transfers dirWarns hsucc
      refine ⟨?_, ?_, ?_⟩ <;> simp [uploadLoop, ha, record]
    · have hf := hfail attempt le_rfl hlt
      have ha := uploadAttempt_of_fail cfg (env attempt) rp attempt ledger
        stored delays transfers dirWarns hf
      simp only [uploadLoop, ha]
      exact ih (attempt + 1) ledger stored _ _ _ k (by omega) (by omega)
        hsucc (fun j hj1 hj2 => hfail j (by omega) hj2)

theorem mem_stepTransfers (e : AttemptEnv) (rp : String) (attempt : Nat)
    (transfers : List (Nat × String)) (x : Nat × String)
    (h : x ∈ transfers) : x ∈ stepTransfers e rp attempt transfers := by
  unfold stepTransfers
  split
  · exact List.mem_append_left _ h
  · exact h

theorem mem_stepDirWarns (e : AttemptEnv) (rp : String) (attempt : Nat)
    (dirWarns : List Nat) (w : Nat) (h : w ∈ dirWarns) :
    w ∈ stepDirWarns e rp attempt dirWarns := by
  unfold stepDirWarns
  split
  · exact List.mem_append_left _ h
  · exact h

theorem self_mem_stepTransfers (e : AttemptEnv) (rp : String) (attempt : Nat)
    (transfers : List (Nat × String)) (h : e.accessOk = true) :
    (attempt, normalizeSlashes rp) ∈ stepTransfers e rp attempt transfers := by
  unfold stepTransfers
  rw [if_pos h]
  simp

theorem self_mem_stepDirWarns (e : AttemptEnv) (rp : String) (attempt : Nat)
    (dirWarns : List Nat) (h1 : e.accessOk = true)
    (h2 : remoteDirOf rp ≠ ".") (h3 : e.ensureDirOk = false) :
    attempt ∈ stepDirWarns e rp attempt dirWarns := by
  unfold stepDirWarns
  rw [if_pos ⟨h1, h2, h3⟩]
  simp

theorem uploadLoop_mono (cfg : RetryConfig) (env : Nat → AttemptEnv)
    (rp : String) :
    ∀ (remaining attempt : Nat) (ledger : List String) (stored : StoredFile)
      (delays : List ℚ) (transfers : List (Nat × String))
      (dirWarns : List Nat),
      (∀ x ∈ transfers,
          x ∈ (uploadLoop cfg env rp remaining attempt ledger stored delays
            transfers dirWarns).transfers)
      ∧ ∀ w ∈ dirWarns,
          w ∈ (uploadLoop cfg env rp remaining attempt ledger stored delays
            transfers dirWarns).dirWarnings := by
  intro remaining
  induction remaining with
  | zero =>
    intro attempt ledger stored delays transfers dirWarns
    cases hs : attemptSucceeds (env attempt) with
    | false =>
      have ha := uploadAttempt_of_fail cfg (env attempt) rp attempt ledger
        stored delays transfers dirWarns hs
      simp only [uploadLoop, ha]
      exact ⟨fun x hx => mem_stepTransfers _ _ _ _ x hx,
        fun w hw => mem_stepDirWarns _ _ _ _ w hw⟩
    | true =>
      have ha := uploadAttempt_of_succ cfg (env attempt) rp attempt ledger
        stored delays transfers dirWarns hs
      simp only [uploadLoop, ha]
      exact ⟨fun x hx => mem_stepTransfers _ _ _ _ x hx,
        fun w hw => mem_stepDirWarns _ _ _ _ w hw⟩
  | succ r ih =>
    intro attempt ledger stored delays transfers dirWarns
    cases hs : attemptSucceeds (env attempt) with
    | false =>
      have ha := uploadAttempt_of_fail cfg (env attempt) rp attempt ledger
        stored delays transfers dirWarns hs
      simp only [uploadLoop, ha]
      obtain ⟨m1, m2⟩ := ih (attempt + 1) ledger stored
        (stepDelays cfg attempt delays)
        (stepTransfers (env attempt) rp attempt transfers)
        (stepDirWarns (env attempt) rp attempt dirWarns)
      exact ⟨fun x hx => m1 x (mem_stepTransfers _ _ _ _ x hx),
        fun w hw => m2 w (mem_stepDirWarns _ _ _ _ w hw)⟩
    | true =>
      have ha := uploadAttempt_of_succ cfg (env attempt) rp attempt ledger
        stored delays transfers dirWarns hs
      simp only [uploadLoop, ha]
      exact ⟨fun x hx => mem_stepTransfers _ _ _ _ x hx,
        fun w hw => mem_stepDirWarns _ _ _ _ w hw⟩

theorem uploadLoop_attempt_effects (cfg : RetryConfig)
    (env : Nat → AttemptEnv) (rp : String) :
    ∀ (remaining attempt : Nat) (ledger : List String) (stored : StoredFile)
      (delays : List ℚ) (transfers : List (Nat × String))
      (dirWarns : List Nat) (k : Nat),
      attempt ≤ k →
      k < (uploadLoop cfg env rp remaining attempt ledger stored delays
          transfers dirWarns).attemptsMade →
      (env k).accessOk = true →
      (k, normalizeSlashes rp) ∈ (uploadLoop cfg env rp remaining attempt
          ledger stored delays transfers dirWarns).transfers
      ∧ ((env k).ensureDirOk = false → remoteDirOf rp ≠ "." →
          k ∈ (uploadLoop cfg env rp remaining attempt ledger stored delays
            transfers dirWarns).dirWarnings) := by
  intro remaining
  induction remaining with
  | zero =>
    intro attempt ledger stored delays transfers dirWarns k hak hklt hacc
    cases hs : attemptSucceeds (env attempt) with
    | false =>
      have ha := uploadAttempt_of_fail cfg (env attempt) rp attempt ledger
        stored delays transfers dirWarns hs
      simp only [uploadLoop, ha] at hklt ⊢
      have hk : k = attempt := by omega
      subst hk
      exact ⟨self_mem_stepTransfers _ _ _ _ hacc,
        fun h2 h3 => self_mem_stepDirWarns _ _ _ _ hacc h3 h2⟩
    | true =>
      have ha := uploadAttempt_of_succ cfg (env attempt) rp attempt ledger
        stored delays transfers dirWarns hs
      simp only [uploadLoop, ha] at hklt ⊢
      have hk : k = attempt := by omega
      subst hk
      exact ⟨self_mem_stepTransfers _ _ _ _ hacc,
        fun h2 h3 => self_mem_stepDirWarns _ _ _ _ hacc h3 h2⟩
  | succ r ih =>
    intro attempt ledger stored delays transfers dirWarns k hak hklt hacc
    cases hs : attemptSucceeds (env attempt) with
    | false =>
      have ha := uploadAttempt_of_fail cfg (env attempt) rp attempt ledger
        stored delays transfers dirWarns hs
      simp only [uploadLoop, ha] at hklt ⊢
      rcases eq_or_lt_of_le hak with heq | hlt
      · subst heq
        obtain ⟨m1, m2⟩ := uploadLoop_mono cfg env rp r (attempt + 1) ledger
          stored (stepDelays cfg attempt delays)
          (stepTransfers (env attempt) rp attempt transfers)
          (stepDirWarns (env attempt) rp attempt dirWarns)
        exact ⟨m1 _ (self_mem_stepTransfers _ _ _ _ hacc),
          fun h2 h3 => m2 _ (self_mem_stepDirWarns _ _ _ _ hacc h3 h2)⟩
      · exact ih (attempt + 1) ledger stored _ _ _ k hlt hklt hacc
    | true =>
      have ha := uploadAttempt_of_succ cfg (env attempt) rp attempt ledger
        stored delays transfers dirWarns hs
      simp only [uploadLoop, ha] at hklt ⊢
      have hk : k = attempt := by omega
      subst hk
      exact ⟨self_mem_stepTransfers _ _ _ _ hacc,
        fun h2 h3 => self_mem_stepDirWarns _ _ _ _ hacc h3 h2⟩

theorem attemptSucceeds_withEnsureDirOk (e : AttemptEnv) :
    attemptSucceeds (withEnsureDirOk e) = attemptSucceeds e := rfl

theorem stepTransfers_withEnsureDirOk (e : AttemptEnv) (rp : String)
    (attempt : Nat) (transfers : List (Nat × String)) :
    stepTransfers (withEnsureDirOk e) rp attempt transfers
      = stepTransfers e rp attempt transfers := rfl

theorem uploadLoop_ensureDir_core (cfg : RetryConfig)
    (env : Nat → AttemptEnv) (rp : String) :
    ∀ (remaining attempt : Nat) (ledger : List String) (stored : StoredFile)
      (delays : List ℚ) (transfers : List (Nat × String))
      (dirWarns dirWarns2 : List Nat),
      coreOf (uploadLoop cfg env rp remaining attempt ledger stored delays
          transfers dirWarns)
        = coreOf (uploadLoop cfg (fun k => withEnsureDirOk (env k)) rp
            remaining attempt ledger stored delays transfers dirWarns2) := by
  intro remaining
  induction remaining with
  | zero =>
    intro attempt ledger stored delays transfers dirWarns dirWarns2
    cases hs : attemptSucceeds (env attempt) with
    | false =>
      have ha := uploadAttempt_of_fail cfg (env attempt) rp attempt ledger
        stored delays transfers dirWarns hs
      have hb := uploadAttempt_of_fail cfg (withEnsureDirOk (env attempt)) rp
        attempt ledger stored delays transfers dirWarns2 hs
      simp only [uploadLoop, ha, hb]
      rfl
    | true =>
      have ha := uploadAttempt_of_succ cfg (env attempt) rp attempt ledger
        stored delays transfers dirWarns hs
      have hb := uploadAttempt_of_succ cfg (withEnsureDirOk (env attempt)) rp
        attempt ledger stored delays transfers dirWarns2 hs
      simp only [uploadLoop, ha, hb]
      rfl
  | succ r ih =>
    intro attempt ledger stored delays transfers dirWarns dirWarns2
    cases hs : attemptSucceeds (env attempt) with
    | false =>
      have ha := uploadAttempt_of_fail cfg (env attempt) rp attempt ledger
        stored delays transfers dirWarns hs
      have hb := uploadAttempt_of_fail cfg (withEnsureDirOk (env attempt)) rp
        attempt ledger stored delays transfers dirWarns2 hs
      simp only [uploadLoop, ha, hb, stepTransfers_withEnsureDirOk]
      exact ih (attempt + 1) ledger stored _ _ _ _
    | true =>
      have ha := uploadAttempt_of_succ cfg (env attempt) rp attempt ledger
        stored delays transfers dirWarns hs
      have hb := uploadAttempt_of_succ cfg (withEnsureDirOk (env attempt)) rp
        attempt ledger stored delays transfers dirWarns2 hs
      simp only [uploadLoop, ha, hb]
      rfl

/-- Claim C3: `calculateRetryDelay n` is exactly
`min (initialDelayMs * backoffMultiplier ^ n) maxDelayMs`, and under the
spec's configuration preconditions (`initialDelay` a duration, hence `≥ 0`,
`backoffMultiplier ≥ 1`, `maxDelay ≥ initialDelay`) the delay sequence is
monotonically non-decreasing in `n`. -/
theorem calculateRetryDelay_formula_and_monotone :
    (∀ (cfg : RetryConfig) (n : Nat),
        calculateRetryDelay cfg n
          = min (cfg.initialDelayMs * cfg.backoffMultiplier ^ n)
              cfg.maxDelayMs)
    ∧ ∀ cfg : RetryConfig, 0 ≤ cfg.initialDelayMs →
        1 ≤ cfg.backoffMultiplier → cfg.initialDelayMs ≤ cfg.maxDelayMs →
        ∀ n : Nat,
          calculateRetryDelay cfg n ≤ calculateRetryDelay cfg (n + 1) := by
  constructor
  · intro cfg n
    rfl
  · intro cfg hinit hmul _ n
    have hpow : cfg.backoffMultiplier ^ n ≤ cfg.backoffMultiplier ^ (n + 1) :=
      pow_le_pow_right₀ hmul (Nat.le_succ n)
    exact min_le_min (mul_le_mul_of_nonneg_left hpow hinit) le_rfl

theorem calculateRetryDelay_monotone_witness :
    (0 : ℚ) ≤ 1000 ∧ (1 : ℚ) ≤ 2 ∧ (1000 : ℚ) ≤ 30000
    ∧ calculateRetryDelay ⟨3, 1000, 30000, 2⟩ 4
        = min ((1000 : ℚ) * 2 ^ 4) 30000
    ∧ calculateRetryDelay ⟨3, 1000, 30000, 2⟩ 4
        ≤ calculateRetryDelay ⟨3, 1000, 30000, 2⟩ 5 :=
  ⟨by norm_num, by norm_num, by norm_num,
    calculateRetryDelay_formula_and_monotone.1 ⟨3, 1000, 30000, 2⟩ 4,
    calculateRetryDelay_formula_and_monotone.2 ⟨3, 1000, 30000, 2⟩
      (by norm_num) (by norm_num) (by norm_num) 4⟩

/-- Claim C1: for an existing regular file, `handleFileChange` skips (no
`uploadFile` call, hence no Transfer Client call) when the ledger already
contains the relative path and the event is not `'change'`; and for a
`'change'` event it always proceeds to `uploadFile`, whatever the ledger. -/
theorem handleFileChange_skip_and_change_override (cfg : RetryConfig)
    (env : Nat → AttemptEnv) (rp event : String) (ledger : List String)
    (stored : StoredFile) (hmem : rp ∈ ledger) (hev : event ≠ "change") :
    handleFileChange cfg env FileStat.file rp event ledger stored
      = HandleOutcome.skippedAlreadyUploaded
    ∧ ∀ (ledger2 : List String) (stored2 : StoredFile),
        handleFileChange cfg env FileStat.file rp "change" ledger2 stored2
          = HandleOutcome.uploaded (uploadFile cfg env rp ledger2 stored2) := by
  constructor
  · simp [handleFileChange, hmem, hev]
  · intro ledger2 stored2
    simp [handleFileChange]

theorem handleFileChange_skip_witness :
    ("a.txt" : String) ∈ ["a.txt"] ∧ ("add" : String) ≠ "change"
    ∧ handleFileChange ⟨3, 1000, 30000, 2⟩ (fun _ => ⟨true, true, true, true⟩)
        FileStat.file "a.txt" "add" ["a.txt"] StoredFile.absent
      = HandleOutcome.skippedAlreadyUploaded :=
  ⟨by simp, by decide,
    (handleFileChange_skip_and_change_override ⟨3, 1000, 30000, 2⟩
      (fun _ => ⟨true, true, true, true⟩) "a.txt" "add" ["a.txt"]
      StoredFile.absent (by simp) (by decide)).1⟩

/-- Claim C6: when the local file is absent at decision time,
`handleFileChange` returns the early-return outcome of line 152: no
`uploadFile` call (hence no Transfer Client call) and no error. -/
theorem handleFileChange_missing_file_skipped (cfg : RetryConfig)
    (env : Nat → AttemptEnv) (rp event : String) (ledger : List String)
    (stored : StoredFile) :
    handleFileChange cfg env FileStat.absent rp event ledger stored
      = HandleOutcome.skippedMissing
    ∧ ∀ o : UploadOutcome,
        handleFileChange cfg env FileStat.absent rp event ledger stored
          ≠ HandleOutcome.uploaded o := by
  refine ⟨rfl, ?_⟩
  intro o h
  exact HandleOutcome.noConfusion h

/-- Claim C7: `loadUploadedFiles` yields the empty set with no warning on a
missing ledger file, the empty set with a logged warning on malformed or
unreadable content, and in every case returns normally (it is a total
function of the stored state; the warning branch is the only one with a
non-empty log and it still returns the empty set). -/
theorem loadUploadedFiles_resilient :
    loadUploadedFiles StoredFile.absent = ([], false)
    ∧ loadUploadedFiles StoredFile.malformed = ([], true)
    ∧ ∀ s : StoredFile, (loadUploadedFiles s).2 = true →
        s = StoredFile.malformed ∧ (loadUploadedFiles s).1 = [] := by
  refine ⟨rfl, rfl, ?_⟩
  intro s h
  cases s with
  | absent => exact absurd h (by simp [loadUploadedFiles])
  | malformed => exact ⟨rfl, rfl⟩
  | content l => exact absurd h (by simp [loadUploadedFiles])

theorem loadUploadedFiles_resilient_witness :
    (loadUploadedFiles StoredFile.malformed).2 = true
    ∧ StoredFile.malformed = StoredFile.malformed
    ∧ (loadUploadedFiles StoredFile.malformed).1 = [] :=
  ⟨rfl, (loadUploadedFiles_resilient.2.2 StoredFile.malformed rfl).1,
    (loadUploadedFiles_resilient.2.2 StoredFile.malformed rfl).2⟩

/-- Claim C5: after `record` successfully persists `relativePath`, a fresh
instance loading the persisted file obtains a set containing
`relativePath`, and a subsequent non-`'change'` event for that path on an
existing regular file is skipped. -/
theorem ledger_record_load_roundtrip (cfg : RetryConfig)
    (env : Nat → AttemptEnv) (rp event : String) (ledger : List String)
    (stored stored2 : StoredFile) (hev : event ≠ "change") :
    rp ∈ (loadUploadedFiles (record true ledger stored rp).2).1
    ∧ handleFileChange cfg env FileStat.file rp event
        (loadUploadedFiles (record true ledger stored rp).2).1 stored2
      = HandleOutcome.skippedAlreadyUploaded := by
  have hmem : rp ∈ (loadUploadedFiles (record true ledger stored rp).2).1 := by
    simp only [record, loadUploadedFiles]
    exact mem_addLedger_self ledger rp
  exact ⟨hmem, by simp [handleFileChange, hmem, hev]⟩

theorem ledger_record_load_roundtrip_witness :
    ("add" : String) ≠ "change"
    ∧ ("a.txt" : String)
        ∈ (loadUploadedFiles (record true [] StoredFile.absent "a.txt").2).1
    ∧ handleFileChange ⟨3, 1000, 30000, 2⟩ (fun _ => ⟨true, true, true, true⟩)
        FileStat.file "a.txt" "add"
        (loadUploadedFiles (record true [] StoredFile.absent "a.txt").2).1
        StoredFile.absent
      = HandleOutcome.skippedAlreadyUploaded :=
  ⟨by decide,
    (ledger_record_load_roundtrip ⟨3, 1000, 30000, 2⟩
      (fun _ => ⟨true, true, true, true⟩) "a.txt" "add" [] StoredFile.absent
      StoredFile.absent (by decide)).1,
    (ledger_record_load_roundtrip ⟨3, 1000, 30000, 2⟩
      (fun _ => ⟨true, true, true, true⟩) "a.txt" "add" [] StoredFile.absent
      StoredFile.absent (by decide)).2⟩

/-- Claim C10: every numeric retry-configuration environment value that is
absent, unparsable (`parseInt`/`parseFloat` yield `NaN`) or parses to `0`
falls back to the default (`maxRetries 3`, `initialDelay 1000`,
`maxDelay 30000`, `backoffMultiplier 2`), because the constructor parses
with `parseInt(...) || default`; in particular `maxRetries = 0` can never
be configured through `FTP_MAX_RETRIES`. -/
theorem retryConfig_env_defaults (mr dly mx : Option Int) (bm : Option ℚ) :
    ((mr = none ∨ mr = some 0) → (mkRetryConfig mr dly mx bm).maxRetries = 3)
    ∧ ((dly = none ∨ dly = some 0) →
        (mkRetryConfig mr dly mx bm).initialDelayMs = 1000)
    ∧ ((mx = none ∨ mx = some 0) →
        (mkRetryConfig mr dly mx bm).maxDelayMs = 30000)
    ∧ ((bm = none ∨ bm = some 0) →
        (mkRetryConfig mr dly mx bm).backoffMultiplier = 2)
    ∧ (mkRetryConfig mr dly mx bm).maxRetries ≠ 0 := by
  refine ⟨?_, ?_, ?_, ?_, ?_⟩
  · rintro (rfl | rfl) <;> simp [mkRetryConfig, parseIntOr]
  · rintro (rfl | rfl) <;> simp [mkRetryConfig, parseIntOr]
  · rintro (rfl | rfl) <;> simp [mkRetryConfig, parseIntOr]
  · rintro (rfl | rfl) <;> simp [mkRetryConfig, parseFloatOr]
  · cases mr with
    | none => simp [mkRetryConfig, parseIntOr]
    | some n =>
      simp only [mkRetryConfig, parseIntOr]
      split
      · omega
      · assumption

theorem retryConfig_env_defaults_witness :
    ((none : Option Int) = none ∨ (none : Option Int) = some 0)
    ∧ ((some (0 : Int)) = none ∨ (some (0 : Int)) = some 0)
    ∧ ((some (0 : ℚ)) = none ∨ (some (0 : ℚ)) = some 0)
    ∧ (mkRetryConfig none (some 0) none (some 0)).maxRetries = 3
    ∧ (mkRetryConfig none (some 0) none (some 0)).initialDelayMs = 1000
    ∧ (mkRetryConfig none (some 0) none (some 0)).maxDelayMs = 30000
    ∧ (mkRetryConfig none (some 0) none (some 0)).backoffMultiplier = 2
    ∧ (mkRetryConfig none (some 0) none (some 0)).maxRetries ≠ 0 :=
  ⟨Or.inl rfl, Or.inr rfl, Or.inr rfl,
    (retryConfig_env_defaults none (some 0) none (some 0)).1 (Or.inl rfl),
    (retryConfig_env_defaults none (some 0) none (some 0)).2.1 (Or.inr rfl),
    (retryConfig_env_defaults none (some 0) none (some 0)).2.2.1 (Or.inl rfl),
    (retryConfig_env_defaults none (some 0) none (some 0)).2.2.2.1
      (Or.inr rfl),
    (retryConfig_env_defaults none (some 0) none (some 0)).2.2.2.2⟩

theorem stepTransfers_snd (e : AttemptEnv) (rp : String) (attempt : Nat)
    (transfers : List (Nat × String))
    (h : ∀ t ∈ transfers, (t : Nat × String).2 = normalizeSlashes rp) :
    ∀ t ∈ stepTransfers e rp attempt transfers,
      (t : Nat × String).2 = normalizeSlashes rp := by
  intro t ht
  unfold stepTransfers at ht
  split at ht
  · rcases List.mem_append.1 ht with h1 | h2
    · exact h t h1
    · rw [List.mem_singleton] at h2
      subst h2
      rfl
  · exact h t ht

theorem uploadLoop_transfers_snd (cfg : RetryConfig) (env : Nat → AttemptEnv)
    (rp : String) :
    ∀ (remaining attempt : Nat) (ledger : List String) (stored : StoredFile)
      (delays : List ℚ) (transfers : List (Nat × String))
      (dirWarns : List Nat),
      (∀ t ∈ transfers, (t : Nat × String).2 = normalizeSlashes rp) →
      ∀ t ∈ (uploadLoop cfg env rp remaining attempt ledger stored delays
          transfers dirWarns).transfers,
        (t : Nat × String).2 = normalizeSlashes rp := by
  intro remaining
  induction remaining with
  | zero =>
    intro attempt ledger stored delays transfers dirWarns h
    cases hs : attemptSucceeds (env attempt) with
    | false =>
      have ha := uploadAttempt_of_fail cfg (env attempt) rp attempt ledger
        stored delays transfers dirWarns hs
      simp only [uploadLoop, ha]
      exact stepTransfers_snd _ _ _ _ h
    | true =>
      have ha := uploadAttempt_of_succ cfg (env attempt) rp attempt ledger
        stored delays transfers dirWarns hs
      simp only [uploadLoop, ha]
      exact stepTransfers_snd _ _ _ _ h
  | succ r ih =>
    intro attempt ledger stored delays transfers dirWarns h
    cases hs : attemptSucceeds (env attempt) with
    | false =>
      have ha := uploadAttempt_of_fail cfg (env attempt) rp attempt ledger
        stored delays transfers dirWarns hs
      simp only [uploadLoop, ha]
      exact ih (attempt + 1) ledger stored _ _ _
        (stepTransfers_snd _ _ _ _ h)
    | true =>
      have ha := uploadAttempt_of_succ cfg (env attempt) rp attempt ledger
        stored delays transfers dirWarns hs
      simp only [uploadLoop, ha]
      exact stepTransfers_snd _ _ _ _ h

/-- Claim C2: when every Transfer Client attempt fails, `uploadFile` makes
exactly `maxRetries + 1` attempts, never reaches the ledger `record` (the
in-memory ledger and the stored ledger file are unchanged), and terminates
by propagating the final error (the `throw` of line 136). -/
theorem uploadFile_retry_exhaustion (cfg : RetryConfig)
    (env : Nat → AttemptEnv) (rp : String) (ledger : List String)
    (stored : StoredFile) (h : ∀ k, attemptSucceeds (env k) = false) :
    (uploadFile cfg env rp ledger stored).attemptsMade = cfg.maxRetries + 1
    ∧ (uploadFile cfg env rp ledger stored).result = UploadResult.thrown
    ∧ (uploadFile cfg env rp ledger stored).ledger = ledger
    ∧ (uploadFile cfg env rp ledger stored).stored = stored := by
  obtain ⟨h1, h2, h3, h4⟩ := uploadLoop_allFail cfg env rp h cfg.maxRetries 0
    ledger stored [] [] []
  have h4b : (uploadFile cfg env rp ledger stored).attemptsMade
      = 0 + cfg.maxRetries + 1 := h4
  exact ⟨by omega, h1, h2, h3⟩

theorem uploadFile_retry_exhaustion_witness :
    attemptSucceeds ⟨false, true, true, true⟩ = false
    ∧ (uploadFile ⟨2, 1000, 30000, 2⟩ (fun _ => ⟨false, true, true, true⟩)
        "a.txt" [] StoredFile.absent).attemptsMade = 3
    ∧ (uploadFile ⟨2, 1000, 30000, 2⟩ (fun _ => ⟨false, true, true, true⟩)
        "a.txt" [] StoredFile.absent).result = UploadResult.thrown
    ∧ (uploadFile ⟨2, 1000, 30000, 2⟩ (fun _ => ⟨false, true, true, true⟩)
        "a.txt" [] StoredFile.absent).ledger = []
    ∧ (uploadFile ⟨2, 1000, 30000, 2⟩ (fun _ => ⟨false, true, true, true⟩)
        "a.txt" [] StoredFile.absent).stored = StoredFile.absent := by
  have h := uploadFile_retry_exhaustion ⟨2, 1000, 30000, 2⟩
    (fun _ => ⟨false, true, true, true⟩) "a.txt" [] StoredFile.absent
    (fun _ => rfl)
  exact ⟨rfl, h.1, h.2.1, h.2.2.1, h.2.2.2⟩

/-- Claim C4: every attempt `k > 0` is preceded by a sleep of exactly
`calculateRetryDelay (k - 1)` — the delay trace of a run equals
`[calculateRetryDelay 0, calculateRetryDelay 1, …]` with one entry per
attempt after the first, so attempt 0 has no backoff delay — and on the
first successful attempt the loop records `relativePath` in the ledger and
returns immediately, with no further attempts. -/
theorem uploadFile_backoff_schedule_and_stop (cfg : RetryConfig)
    (env : Nat → AttemptEnv) (rp : String) (ledger : List String)
    (stored : StoredFile) :
    (uploadFile cfg env rp ledger stored).delays
      = (List.range
          ((uploadFile cfg env rp ledger stored).attemptsMade - 1)).map
          (calculateRetryDelay cfg)
    ∧ ∀ k : Nat, k ≤ cfg.maxRetries → attemptSucceeds (env k) = true →
        (∀ j, j < k → attemptSucceeds (env j) = false) →
        (uploadFile cfg env rp ledger stored).attemptsMade = k + 1
        ∧ (uploadFile cfg env rp ledger stored).result = UploadResult.success
        ∧ (uploadFile cfg env rp ledger stored).ledger = addLedger ledger rp
        ∧ rp ∈ (uploadFile cfg env rp ledger stored).ledger := by
  constructor
  · exact uploadLoop_delays_inv cfg env rp cfg.maxRetries 0 ledger stored
      [] [] [] (by simp)
  · intro k hk hsucc hfail
    obtain ⟨h1, h2, h3⟩ := uploadLoop_first_success cfg env rp cfg.maxRetries
      0 ledger stored [] [] [] k (Nat.zero_le k) (by omega) hsucc
      (fun j _ hj => hfail j hj)
    refine ⟨h1, h2, h3, ?_⟩
    have h3b : (uploadFile cfg env rp ledger stored).ledger
        = addLedger ledger rp := h3
    rw [h3b]
    exact mem_addLedger_self ledger rp

theorem uploadFile_backoff_schedule_witness :
    (uploadFile ⟨2, 1000, 30000, 2⟩
        (fun k => if k = 0 then ⟨false, true, true, true⟩
          else ⟨true, true, true, true⟩) "a.txt" [] StoredFile.absent).delays
      = (List.range ((uploadFile ⟨2, 1000, 30000, 2⟩
          (fun k => if k = 0 then ⟨false, true, true, true⟩
            else ⟨true, true, true, true⟩) "a.txt" []
          StoredFile.absent).attemptsMade - 1)).map
          (calculateRetryDelay ⟨2, 1000, 30000, 2⟩)
    ∧ (uploadFile ⟨2, 1000, 30000, 2⟩
        (fun k => if k = 0 then ⟨false, true, true, true⟩
          else ⟨true, true, true, true⟩) "a.txt" []
        StoredFile.absent).attemptsMade = 2
    ∧ (uploadFile ⟨2, 1000, 30000, 2⟩
        (fun k => if k = 0 then ⟨false, true, true, true⟩
          else ⟨true, true, true, true⟩) "a.txt" []
        StoredFile.absent).result = UploadResult.success
    ∧ ("a.txt" : String) ∈ (uploadFile ⟨2, 1000, 30000, 2⟩
        (fun k => if k = 0 then ⟨false, true, true, true⟩
          else ⟨true, true, true, true⟩) "a.txt" []
        StoredFile.absent).ledger := by
  have h := uploadFile_backoff_schedule_and_stop ⟨2, 1000, 30000, 2⟩
    (fun k => if k = 0 then ⟨false, true, true, true⟩
      else ⟨true, true, true, true⟩) "a.txt" [] StoredFile.absent
  have h2 := h.2 1 (by decide) (by decide)
    (fun j hj => by
      have hj0 : j = 0 := by omega
      subst hj0
      decide)
  exact ⟨h.1, h2.1, h2.2.1, h2.2.2.2⟩

/-- Claim C8: every remote path handed to the file transfer is the relative
path with each backslash replaced by a forward slash; in particular
`sub/dir\name.txt` is uploaded to `sub/dir/name.txt`. -/
theorem uploadFile_remote_path_normalized (cfg : RetryConfig)
    (env : Nat → AttemptEnv) (rp : String) (ledger : List String)
    (stored : StoredFile) :
    (∀ t ∈ (uploadFile cfg env rp ledger stored).transfers,
        (t : Nat × String).2 = normalizeSlashes rp)
    ∧ normalizeSlashes "sub/dir\\name.txt" = "sub/dir/name.txt" := by
  refine ⟨?_, by decide⟩
  exact uploadLoop_transfers_snd cfg env rp cfg.maxRetries 0 ledger stored
    [] [] [] (by simp)

theorem uploadFile_remote_path_normalized_witness :
    (0, normalizeSlashes "sub/dir\\name.txt")
        ∈ (uploadFile ⟨0, 1000, 30000, 2⟩ (fun _ => ⟨true, true, true, true⟩)
          "sub/dir\\name.txt" [] StoredFile.absent).transfers
    ∧ ("sub/dir/name.txt" : String)
        = normalizeSlashes "sub/dir\\name.txt" := by
  refine ⟨by decide, ?_⟩
  exact ((uploadFile_remote_path_normalized ⟨0, 1000, 30000, 2⟩
    (fun _ => ⟨true, true, true, true⟩) "sub/dir\\name.txt" []
    StoredFile.absent).1 (0, "sub/dir/name.txt") (by decide)).symm

/-- Claim C9: a failing `ensureDir` is logged as a warning and the same
attempt still performs the file transfer; a run differs from the run in
which `ensureDir` always succeeds only in the warning log (same result,
ledger, stored file, delay trace, attempt count and transfer invocations),
so a directory-creation error alone never fails an attempt or advances the
retry loop. -/
theorem uploadFile_ensureDir_failure_nonfatal (cfg : RetryConfig)
    (env : Nat → AttemptEnv) (rp : String) (ledger : List String)
    (stored : StoredFile) :
    coreOf (uploadFile cfg env rp ledger stored)
      = coreOf (uploadFile cfg (fun k => withEnsureDirOk (env k)) rp ledger
          stored)
    ∧ ∀ k : Nat, k < (uploadFile cfg env rp ledger stored).attemptsMade →
        (env k).accessOk = true →
        (k, normalizeSlashes rp)
            ∈ (uploadFile cfg env rp ledger stored).transfers
        ∧ ((env k).ensureDirOk = false → remoteDirOf rp ≠ "." →
            k ∈ (uploadFile cfg env rp ledger stored).dirWarnings) := by
  constructor
  · exact uploadLoop_ensureDir_core cfg env rp cfg.maxRetries 0 ledger stored
      [] [] [] []
  · intro k hk hacc
    exact uploadLoop_attempt_effects cfg env rp cfg.maxRetries 0 ledger
      stored [] [] [] k (Nat.zero_le k) hk hacc

theorem uploadFile_ensureDir_failure_nonfatal_witness :
    (0, normalizeSlashes "sub/a.txt")
        ∈ (uploadFile ⟨0, 1000, 30000, 2⟩
          (fun _ => ⟨true, false, true, true⟩) "sub/a.txt" []
          StoredFile.absent).transfers
    ∧ 0 ∈ (uploadFile ⟨0, 1000, 30000, 2⟩
        (fun _ => ⟨true, false, true, true⟩) "sub/a.txt" []
        StoredFile.absent).dirWarnings := by
  have h := (uploadFile_ensureDir_failure_nonfatal ⟨0, 1000, 30000, 2⟩
    (fun _ => ⟨true, false, true, true⟩) "sub/a.txt" []
    StoredFile.absent).2 0 (by decide) rfl
  exact ⟨h.1, h.2 rfl (by decide)⟩

end FtpAutoUpload
